import Mathlib

/-!
Shallow embedding of the achievement-tracking service
(`src/RuckTracker/api/achievements.rs`).

JSON values (`serde_json::Value`) are modelled by an inductive `Json` with
rational numbers standing for the numeric payloads; `HashMap` arguments are
modelled by association lists with first-match lookup; the process-wide cache
(`HashMap<String, (Value, DateTime<Utc>)>` behind a mutex) is modelled as a
function from keys to optional entries, with the wall clock (`Utc::now()`)
passed explicitly as a rational number of seconds.
-/

/-- Model of `serde_json::Value`. -/
inductive Json where
  | null : Json
  | bool (b : Bool) : Json
  | num (q : ℚ) : Json
  | str (s : String) : Json
  | arr (items : List Json) : Json
  | obj (fields : List (String × Json)) : Json
deriving Repr

/-- Model of `Value::as_str`. -/
def Json.asStr : Json → Option String
  | .str s => some s
  | _ => none

/-- Model of `Value::as_f64`: every JSON number is convertible. -/
def Json.asF64 : Json → Option ℚ
  | .num q => some q
  | _ => none

/-- Model of `Value::as_bool` as used by deserialization of `bool` fields. -/
def Json.asBool : Json → Option Bool
  | .bool b => some b
  | _ => none

/-- Model of `Value::as_array`. -/
def Json.asArr : Json → Option (List Json)
  | .arr items => some items
  | _ => none

/-- Model of deserializing a JSON value into a `HashMap<String, Value>`. -/
def Json.asObj : Json → Option (List (String × Json))
  | .obj fields => some fields
  | _ => none

/-- Model of deserializing a JSON number into an `i32`: the number must be an
integer within the `i32` range. -/
def Json.asI32 : Json → Option Int
  | .num q =>
      if q.den = 1 ∧ -(2 ^ 31) ≤ q.num ∧ q.num < 2 ^ 31 then some q.num else none
  | _ => none

/-- `HashMap` lookup, on the association-list model. -/
def hmGet {α : Type} (m : List (String × α)) (k : String) : Option α :=
  match m with
  | [] => none
  | (k', v) :: rest => if k' = k then some v else hmGet rest k

/-- The `Achievement` struct of the source. -/
structure Achievement where
  id : Int
  achievement_key : String
  name : String
  description : String
  category : String
  tier : String
  criteria : List (String × Json)
  icon_name : Option String
  is_active : Bool
  created_at : Option String
  updated_at : Option String
  unit_preference : Option String
deriving Repr

/-- The in-memory cache `HashMap<String, (serde_json::Value, DateTime<Utc>)>`,
as a function from keys to optional (value, expiry) pairs. -/
def Cache : Type := String → Option (Json × ℚ)

/-- `cache_get`: return the stored value only while `Utc::now() < expiry`.
The wall-clock reading `now` is passed explicitly. -/
def cache_get (cache : Cache) (key : String) (now : ℚ) : Option Json :=
  match cache key with
  | some (value, expiry) => if now < expiry then some value else none
  | none => none

/-- `cache_set`: insert/overwrite `key` with expiry `Utc::now() + ttl_seconds`. -/
def cache_set (cache : Cache) (key : String) (value : Json) (ttl_seconds : ℤ)
    (now : ℚ) : Cache :=
  fun k => if k = key then some (value, now + (ttl_seconds : ℚ)) else cache k

/-- `criteria.get("target").and_then(|v| v.as_f64()).unwrap_or(0.0)`. -/
def criteriaTarget (criteria : List (String × Json)) : ℚ :=
  ((hmGet criteria "target").bind Json.asF64).getD 0

/-- `session.get("distance_km").and_then(|v| v.as_f64()).unwrap_or(0.0)`. -/
def sessionDistance (session : List (String × Json)) : ℚ :=
  ((hmGet session "distance_km").bind Json.asF64).getD 0

/-- `check_criteria`: dispatch on the `"type"` entry of the achievement's
criteria map (absent or non-string becomes `""`), with the two implemented
kinds; every other tag falls to the catch-all `false` arm.  The unused
`user_id` and `user_stats` parameters of the source are kept. -/
def check_criteria (user_id : String) (session : List (String × Json))
    (achievement : Achievement) (user_stats : List (String × ℚ)) : Bool :=
  let criteria := achievement.criteria
  let criteria_type := ((hmGet criteria "type").bind Json.asStr).getD ""
  if criteria_type = "first_ruck" then
    true
  else if criteria_type = "single_session_distance" then
    let target := criteriaTarget criteria
    let distance := sessionDistance session
    decide (distance ≥ target)
  else
    false

/-- Deserialization of an optional string field (`Option<String>` in serde):
absent or `null` gives `none`; a string gives `some`; any other shape is a
parse error. -/
def parseOptStr (fields : List (String × Json)) (key : String) :
    Option (Option String) :=
  match hmGet fields key with
  | none => some none
  | some .null => some none
  | some (.str s) => some (some s)
  | some _ => none

/-- Model of `serde_json::from_value::<Achievement>`: the value must be an
object; required fields must be present with the right shape; optional fields
default to `none`; unknown fields are ignored. -/
def parseAchievement (j : Json) : Option Achievement :=
  match j.asObj with
  | none => none
  | some fields => do
      let id ← (hmGet fields "id").bind Json.asI32
      let achievement_key ← (hmGet fields "achievement_key").bind Json.asStr
      let name ← (hmGet fields "name").bind Json.asStr
      let description ← (hmGet fields "description").bind Json.asStr
      let category ← (hmGet fields "category").bind Json.asStr
      let tier ← (hmGet fields "tier").bind Json.asStr
      let criteria ← (hmGet fields "criteria").bind Json.asObj
      let icon_name ← parseOptStr fields "icon_name"
      let is_active ← (hmGet fields "is_active").bind Json.asBool
      let created_at ← parseOptStr fields "created_at"
      let updated_at ← parseOptStr fields "updated_at"
      let unit_preference ← parseOptStr fields "unit_preference"
      pure ⟨id, achievement_key, name, description, category, tier, criteria,
            icon_name, is_active, created_at, updated_at, unit_preference⟩

/-- Serialization of `Option<String>`: `None` becomes `null`. -/
def optStrJson : Option String → Json
  | none => .null
  | some s => .str s

/-- Model of `serde_json::to_value` on an `Achievement`. -/
def Achievement.toJson (a : Achievement) : Json :=
  .obj [("id", .num (a.id : ℚ)),
        ("achievement_key", .str a.achievement_key),
        ("name", .str a.name),
        ("description", .str a.description),
        ("category", .str a.category),
        ("tier", .str a.tier),
        ("criteria", .obj a.criteria),
        ("icon_name", optStrJson a.icon_name),
        ("is_active", .bool a.is_active),
        ("created_at", optStrJson a.created_at),
        ("updated_at", optStrJson a.updated_at),
        ("unit_preference", optStrJson a.unit_preference)]

/-- The unit-preference condition of the handler's filter:
`ach.unit_preference.is_none() || ach.unit_preference.as_ref() == Some(&unit_preference)`. -/
def unitPred (unit_preference : String) (ach : Achievement) : Bool :=
  ach.unit_preference.isNone || decide (ach.unit_preference = some unit_preference)

/-- The handler's `filter_map`: parse each fetched record, dropping the ones
that fail to parse (`.ok()?`), and keep a parsed achievement when the
unit-preference condition holds. -/
def filterAchievements (unit_preference : String) (items : List Json) :
    List Achievement :=
  items.filterMap fun item =>
    match parseAchievement item with
    | none => none
    | some ach => if unitPred unit_preference ach then some ach else none

/-- Outcome of `execute_supabase_query`: fetched JSON, or a request/parse
error (`ActixError`). -/
inductive FetchResult where
  | ok (data : Json)
  | err
deriving Repr

/-- The distinguishable responses of `achievements_handler`: a 200 with the
response body, a 500 (`InternalServerError`) on fetch failure, or a panic
(the `.unwrap()` on `as_array` when the fetched data is not an array). -/
inductive HandlerResult where
  | okJson (body : Json)
  | serverError
  | panicked
deriving Repr

/-- The success body `json!({ "status": "success", "achievements": ... })`. -/
def successBody (achievements : Json) : Json :=
  .obj [("status", .str "success"), ("achievements", achievements)]

/-- `achievements_handler` after `unit_preference` has been read from the
query string: cache lookup, then on a miss the fetch, the parse/filter pass,
the cache write (TTL 1800) and the response. -/
def achievements_handler_core (unit_preference : String) (cache : Cache)
    (fetch : FetchResult) (now : ℚ) : HandlerResult × Cache :=
  let cache_key := "achievements:all:" ++ unit_preference
  match cache_get cache cache_key now with
  | some cached => (.okJson (successBody cached), cache)
  | none =>
    match fetch with
    | .ok data =>
      match data.asArr with
      | none => (.panicked, cache)
      | some items =>
        let filtered := filterAchievements unit_preference items
        let filteredJson := Json.arr (filtered.map Achievement.toJson)
        (.okJson (successBody filteredJson),
         cache_set cache cache_key filteredJson 1800 now)
    | .err => (.serverError, cache)

/-- `achievements_handler`: read `unit_preference` from the query map,
defaulting to `"metric"`, then run the core. -/
def achievements_handler (query : List (String × String)) (cache : Cache)
    (fetch : FetchResult) (now : ℚ) : HandlerResult × Cache :=
  let unit_preference := (hmGet query "unit_preference").getD "metric"
  achievements_handler_core unit_preference cache fetch now

/-- Concrete inactive achievement used to exercise the listing filter. -/
def inactiveExample : Achievement :=
  ⟨1, "k", "n", "d", "c", "t", [], none, false, none, none, none⟩

/-- `Json.asI32` on an integer-valued number in `i32` range recovers it. -/
theorem asI32_intCast (n : ℤ) (h1 : -(2 ^ 31) ≤ n) (h2 : n < 2 ^ 31) :
    Json.asI32 (.num (n : ℚ)) = some n := by
  norm_num at h1 h2
  simp [Json.asI32, h1, h2]

/-- C3: a set followed by an immediate get returns the value when the TTL is
positive; a get strictly more than `t` seconds after the set is absent; and a
get never returns a value whose recorded expiry has passed. -/
theorem cache_ttl_expiry_spec (cache : Cache) (k : String) (v : Json) (t : ℤ)
    (now : ℚ) (ht : 0 < t) :
    cache_get (cache_set cache k v t now) k now = some v
    ∧ (∀ nowLater : ℚ, now + (t : ℚ) < nowLater →
        cache_get (cache_set cache k v t now) k nowLater = none)
    ∧ (∀ (c : Cache) (key : String) (n : ℚ) (w : Json),
        cache_get c key n = some w → ∃ exp : ℚ, c key = some (w, exp) ∧ n < exp) := by
  refine ⟨?_, ?_, ?_⟩
  · have : now < now + (t : ℚ) := by
      have : (0 : ℚ) < (t : ℚ) := by exact_mod_cast ht
      linarith
    simp [cache_get, cache_set, this]
  · intro nowLater hlt
    have : ¬ nowLater < now + (t : ℚ) := by linarith
    simp [cache_get, cache_set, this]
  · intro c key n w hget
    unfold cache_get at hget
    cases hck : c key with
    | none => rw [hck] at hget; simp at hget
    | some p =>
      obtain ⟨w', exp⟩ := p
      rw [hck] at hget
      have hlt : n < exp := by
        by_cases hlt : n < exp
        · exact hlt
        · simp [hlt] at hget
      have hw : w' = w := by simpa [hlt] using hget
      exact ⟨exp, by rw [hw], hlt⟩

/-- C3 witness at concrete inputs. -/
theorem cache_ttl_expiry_spec_witness :
    cache_get (cache_set (fun _ => none) "k" (Json.str "x") 1 0) "k" 0
      = some (Json.str "x")
    ∧ cache_get (cache_set (fun _ => none) "k" (Json.str "x") 1 0) "k" 2 = none := by
  have h := cache_ttl_expiry_spec (fun _ => none) "k" (Json.str "x") 1 0 (by decide)
  exact ⟨h.1, h.2.1 2 (by norm_num)⟩

/-- C9: setting one key leaves every other key's lookup unchanged. -/
theorem cache_key_isolation (cache : Cache) (k1 k2 : String) (h : k1 ≠ k2)
    (v : Json) (t : ℤ) (now nowRead : ℚ) :
    cache_get (cache_set cache k1 v t now) k2 nowRead = cache_get cache k2 nowRead := by
  simp [cache_get, cache_set, Ne.symm h]

/-- C9 witness: a value stored under the metric variant key is not observable
via the imperial variant key. -/
theorem cache_key_isolation_witness :
    cache_get
      (cache_set
        (fun key => if key = "achievements:all:imperial" then some (Json.str "B", 10) else none)
        "achievements:all:metric" (Json.str "A") 1800 0)
      "achievements:all:imperial" 0
    = cache_get
        (fun key => if key = "achievements:all:imperial" then some (Json.str "B", 10) else none)
        "achievements:all:imperial" 0 :=
  cache_key_isolation _ "achievements:all:metric" "achievements:all:imperial"
    (by decide) (Json.str "A") 1800 0 0

/-- C10: the expiry comparison is strict — a get at exactly the recorded
expiry instant is absent — so an entry set with TTL 0 is never observable at
or after the time of the set. -/
theorem cache_expiry_strict (cache : Cache) (k : String) :
    (∀ (v : Json) (exp : ℚ), cache k = some (v, exp) → cache_get cache k exp = none)
    ∧ (∀ (v : Json) (nowSet nowGet : ℚ), nowSet ≤ nowGet →
        cache_get (cache_set cache k v 0 nowSet) k nowGet = none) := by
  constructor
  · intro v exp hk
    simp [cache_get, hk]
  · intro v nowSet nowGet hle
    simp [cache_get, cache_set, hle]

/-- C10 witness at concrete inputs. -/
theorem cache_expiry_strict_witness :
    cache_get (fun key => if key = "k" then some (Json.null, 5) else none) "k" 5 = none
    ∧ cache_get (cache_set (fun _ => none) "k" Json.null 0 0) "k" 1 = none := by
  have h := cache_expiry_strict
    (fun key => if key = "k" then some (Json.null, 5) else none) "k"
  exact ⟨h.1 Json.null 5 (by simp), (cache_expiry_strict (fun _ => none) "k").2
    Json.null 0 1 (by norm_num)⟩

/-- C1: an achievement whose criteria map has no `"type"` entry, or whose
`"type"` entry is not a string, or whose type string is not a recognized kind,
is never satisfied: `check_criteria` returns `false` for every user, session
and aggregate-stats input. -/
theorem unknown_criteria_fail_closed (a : Achievement)
    (h : ∀ s : String, hmGet a.criteria "type" = some (Json.str s) →
          s ≠ "first_ruck" ∧ s ≠ "single_session_distance")
    (user_id : String) (session : List (String × Json))
    (user_stats : List (String × ℚ)) :
    check_criteria user_id session a user_stats = false := by
  have hne : ((hmGet a.criteria "type").bind Json.asStr).getD "" ≠ "first_ruck"
      ∧ ((hmGet a.criteria "type").bind Json.asStr).getD ""
          ≠ "single_session_distance" := by
    cases hj : hmGet a.criteria "type" with
    | none => simp
    | some j =>
      cases j with
      | str s => simpa [Json.asStr] using h s hj
      | null => simp [Json.asStr]
      | bool b => simp [Json.asStr]
      | num q => simp [Json.asStr]
      | arr items => simp [Json.asStr]
      | obj fields => simp [Json.asStr]
  simp [check_criteria, hne.1, hne.2]

/-- C1 witness: a criteria map whose `"type"` entry is a number (not a
string) yields `false` on the empty session and empty stats. -/
theorem unknown_criteria_fail_closed_witness :
    check_criteria "u" []
      ⟨7, "k", "n", "d", "c", "t", [("type", Json.num 3)], none, true, none, none, none⟩
      [] = false :=
  unknown_criteria_fail_closed _ (fun s hs => by simp [hmGet] at hs) "u" [] []

/-- C7: an achievement whose criteria type is `"first_ruck"` is satisfied
unconditionally — for every user, session and stats input. -/
theorem first_ruck_always_true (a : Achievement)
    (h : hmGet a.criteria "type" = some (Json.str "first_ruck"))
    (user_id : String) (session : List (String × Json))
    (user_stats : List (String × ℚ)) :
    check_criteria user_id session a user_stats = true := by
  simp [check_criteria, h, Json.asStr]

/-- C7 witness: a concrete `first_ruck` achievement evaluated on an empty
session and empty stats. -/
theorem first_ruck_always_true_witness :
    check_criteria "u" []
      ⟨7, "k", "n", "d", "c", "t", [("type", Json.str "first_ruck")], none, true, none, none, none⟩
      [] = true :=
  first_ruck_always_true
    ⟨7, "k", "n", "d", "c", "t", [("type", Json.str "first_ruck")], none, true, none, none, none⟩
    rfl "u" [] []

/-- C2: for a `"single_session_distance"` achievement the evaluation is
exactly the comparison `distance_km >= target`, the boundary counts as
satisfied, and a missing or non-numeric `target` or `distance_km` defaults
to `0`. -/
theorem single_session_distance_spec (a : Achievement)
    (h : hmGet a.criteria "type" = some (Json.str "single_session_distance"))
    (user_id : String) (session : List (String × Json))
    (user_stats : List (String × ℚ)) :
    (check_criteria user_id session a user_stats = true
      ↔ criteriaTarget a.criteria ≤ sessionDistance session)
    ∧ (∀ T : ℚ, hmGet a.criteria "target" = some (Json.num T) →
        (check_criteria user_id session a user_stats = true
          ↔ T ≤ sessionDistance session))
    ∧ (hmGet a.criteria "target" = none → criteriaTarget a.criteria = 0)
    ∧ (∀ j, hmGet a.criteria "target" = some j → Json.asF64 j = none →
        criteriaTarget a.criteria = 0)
    ∧ (hmGet session "distance_km" = none → sessionDistance session = 0)
    ∧ (∀ j, hmGet session "distance_km" = some j → Json.asF64 j = none →
        sessionDistance session = 0) := by
  have hc : check_criteria user_id session a user_stats
      = decide (sessionDistance session ≥ criteriaTarget a.criteria) := by
    simp [check_criteria, h, Json.asStr]
  refine ⟨?_, ?_, ?_, ?_, ?_, ?_⟩
  · rw [hc]; simp [ge_iff_le]
  · intro T hT
    rw [hc]
    simp [ge_iff_le, criteriaTarget, hT, Json.asF64]
  · intro hT; simp [criteriaTarget, hT]
  · intro j hj hnum; simp [criteriaTarget, hj, hnum]
  · intro hd; simp [sessionDistance, hd]
  · intro j hj hnum; simp [sessionDistance, hj, hnum]

/-- C2 witness: boundary case — distance exactly equal to the target is
satisfied. -/
theorem single_session_distance_spec_witness :
    check_criteria "u" [("distance_km", Json.num 10)]
      ⟨7, "k", "n", "d", "c", "t",
        [("type", Json.str "single_session_distance"), ("target", Json.num 10)],
        none, true, none, none, none⟩
      [] = true := by
  have h := single_session_distance_spec
    ⟨7, "k", "n", "d", "c", "t",
      [("type", Json.str "single_session_distance"), ("target", Json.num 10)],
      none, true, none, none, none⟩
    rfl "u" [("distance_km", Json.num 10)] []
  exact (h.2.1 10 rfl).mpr (by simp [sessionDistance, hmGet, Json.asF64])

/-- C6: when the backing-store fetch fails, the handler leaves the cache
completely unmodified, and on a cache miss (the only path on which the fetch
runs) the caller receives the error response instead of achievement data. -/
theorem fetch_error_leaves_cache (query : List (String × String)) (cache : Cache)
    (now : ℚ) :
    (achievements_handler query cache .err now).2 = cache
    ∧ (cache_get cache
        ("achievements:all:" ++ (hmGet query "unit_preference").getD "metric") now
          = none →
        (achievements_handler query cache .err now).1 = .serverError) := by
  constructor
  · simp only [achievements_handler, achievements_handler_core]
    split
    · rfl
    · rfl
  · intro h
    simp only [achievements_handler, achievements_handler_core]
    rw [h]

/-- C6 witness: empty cache, empty query, failing fetch. -/
theorem fetch_error_leaves_cache_witness :
    (achievements_handler [] (fun _ => none) .err 0).1 = HandlerResult.serverError
    ∧ (achievements_handler [] (fun _ => none) .err 0).2 = (fun _ => none) := by
  have h := fetch_error_leaves_cache [] (fun _ => none) 0
  exact ⟨h.2 rfl, h.1⟩

/-- C8: a fetched record that fails to parse is skipped on its own — the
filtered result over a list containing it equals the result without it — and
on a cache miss the handler still answers success with, and caches, the
successfully parsed filtered achievements. -/
theorem malformed_record_skipped (unit_preference : String) (l1 l2 : List Json)
    (j : Json) (hj : parseAchievement j = none) :
    filterAchievements unit_preference (l1 ++ j :: l2)
      = filterAchievements unit_preference (l1 ++ l2)
    ∧ (∀ (cache : Cache) (now : ℚ) (items : List Json),
        cache_get cache ("achievements:all:" ++ unit_preference) now = none →
        achievements_handler_core unit_preference cache (.ok (.arr items)) now
          = (.okJson (successBody
                (.arr ((filterAchievements unit_preference items).map
                  Achievement.toJson))),
             cache_set cache ("achievements:all:" ++ unit_preference)
               (.arr ((filterAchievements unit_preference items).map
                 Achievement.toJson))
               1800 now)) := by
  constructor
  · simp [filterAchievements, List.filterMap_append, List.filterMap_cons, hj]
  · intro cache now items hmiss
    simp [achievements_handler_core, hmiss, Json.asArr]

/-- C8 witness: a `null` record (which fails to parse) contributes nothing,
and the handler still succeeds on a catalogue consisting of just that record. -/
theorem malformed_record_skipped_witness :
    filterAchievements "metric" [Json.null] = filterAchievements "metric" []
    ∧ achievements_handler_core "metric" (fun _ => none)
        (.ok (.arr [Json.null])) 0
      = (.okJson (successBody (.arr [])),
         cache_set (fun _ => none) "achievements:all:metric" (.arr []) 1800 0) := by
  have h := malformed_record_skipped "metric" [] [] Json.null rfl
  exact ⟨h.1, h.2 (fun _ => none) 0 [Json.null] rfl⟩

/-- Serialization followed by deserialization recovers an achievement whose
`id` is in `i32` range. -/
theorem parseAchievement_toJson (a : Achievement)
    (h1 : -(2 ^ 31) ≤ a.id) (h2 : a.id < 2 ^ 31) :
    parseAchievement a.toJson = some a := by
  obtain ⟨id, akey, nm, ds, ct, tr, cr, icon, act, cat, uat, unit⟩ := a
  have hi := asI32_intCast id h1 h2
  cases icon <;> cases cat <;> cases uat <;> cases unit <;>
    simp [parseAchievement, Achievement.toJson, Json.asObj, hmGet, parseOptStr,
      optStrJson, Json.asStr, Json.asBool, hi, Option.bind]

/-- C5: on a catalogue of well-formed achievement records, the handler's
filter retains exactly the achievements whose `unit_preference` is absent or
equal to the requested system, preserving input order (it is `List.filter` of
the unit condition, a stable sublist); and a query without `unit_preference`
makes the handler run with `"metric"`. -/
theorem unit_filter_spec (unit_preference : String) (l : List Achievement)
    (hr : ∀ a ∈ l, -(2 ^ 31) ≤ a.id ∧ a.id < 2 ^ 31) :
    filterAchievements unit_preference (l.map Achievement.toJson)
      = l.filter (unitPred unit_preference)
    ∧ (∀ a : Achievement, a ∈ l.filter (unitPred unit_preference)
        ↔ a ∈ l ∧ (a.unit_preference = none ∨ a.unit_preference = some unit_preference))
    ∧ (l.filter (unitPred unit_preference)).Sublist l
    ∧ (∀ (query : List (String × String)) (cache : Cache) (fetch : FetchResult)
        (now : ℚ), hmGet query "unit_preference" = none →
        achievements_handler query cache fetch now
          = achievements_handler_core "metric" cache fetch now) := by
  refine ⟨?_, ?_, List.filter_sublist l, ?_⟩
  · induction l with
    | nil => rfl
    | cons a t ih =>
      have hra := hr a (List.mem_cons_self a t)
      have hparse := parseAchievement_toJson a hra.1 hra.2
      have iht := ih (fun b hb => hr b (List.mem_cons_of_mem a hb))
      cases hu : unitPred unit_preference a <;>
        simp only [filterAchievements, List.map_cons, List.filterMap_cons,
          List.filter_cons, hparse, hu, if_true, if_false, Bool.false_eq_true,
          ite_false, ite_true] <;>
        simpa [filterAchievements] using iht
  · intro a
    simp [List.mem_filter, unitPred, Option.isNone_iff_eq_none, or_comm]
  · intro query cache fetch now hq
    simp [achievements_handler, hq]

/-- C5 witness: the spec's example — no-preference, metric, imperial — with
requested `"metric"` keeps exactly the first two, in order. -/
theorem unit_filter_spec_witness :
    filterAchievements "metric"
      (List.map Achievement.toJson
        [⟨1, "a", "n", "d", "c", "t", [], none, true, none, none, none⟩,
         ⟨2, "b", "n", "d", "c", "t", [], none, true, none, none, some "metric"⟩,
         ⟨3, "c", "n", "d", "c", "t", [], none, true, none, none, some "imperial"⟩])
      = [⟨1, "a", "n", "d", "c", "t", [], none, true, none, none, none⟩,
         ⟨2, "b", "n", "d", "c", "t", [], none, true, none, none, some "metric"⟩] := by
  have h := unit_filter_spec "metric"
    [⟨1, "a", "n", "d", "c", "t", [], none, true, none, none, none⟩,
     ⟨2, "b", "n", "d", "c", "t", [], none, true, none, none, some "metric"⟩,
     ⟨3, "c", "n", "d", "c", "t", [], none, true, none, none, some "imperial"⟩]
    (by intro a ha; fin_cases ha <;> constructor <;> decide)
  rw [h.1]
  rfl

/-- C4 counterexample: with an empty cache and a catalogue holding a single
record whose `is_active` is `false` (and no unit preference), the listing
handler returns that inactive achievement — it is not excluded. -/
theorem listing_keeps_inactive_counterexample :
    inactiveExample.is_active = false
    ∧ (achievements_handler [] (fun _ => none)
        (.ok (.arr [inactiveExample.toJson])) 0).1
      = .okJson (successBody (.arr [inactiveExample.toJson])) := by
  constructor
  · rfl
  · rfl

/-- C4 amended: the listing handler never consults `is_active`; every fetched
record that parses and satisfies the unit-preference condition appears in the
filtered output, whatever its `is_active` value (in particular when it is
`false`). -/
theorem listing_ignores_is_active (unit_preference : String) (items : List Json)
    (a : Achievement) (hj : ∃ j ∈ items, parseAchievement j = some a)
    (hu : unitPred unit_preference a = true) :
    a ∈ filterAchievements unit_preference items := by
  obtain ⟨j, hjm, hp⟩ := hj
  simp only [filterAchievements, List.mem_filterMap]
  exact ⟨j, hjm, by simp [hp, hu]⟩

/-- C4 amended witness: the concrete inactive achievement is in the filtered
output. -/
theorem listing_ignores_is_active_witness :
    inactiveExample ∈ filterAchievements "metric" [inactiveExample.toJson] :=
  listing_ignores_is_active "metric" [inactiveExample.toJson] inactiveExample
    ⟨inactiveExample.toJson, by simp, by rfl⟩ (by rfl)
